import Mathlib

/-!
Shallow embedding of the in-browser annotation editing and undo/redo history
engine of the PDF editor component (src/unnamed/part_000).

Numbers (pixel coordinates, zoom percentages, font sizes) are modelled as
rationals; all arithmetic performed by the relevant code paths (addition,
subtraction, multiplication, division by 100, min, abs, comparisons) is exact
on the inputs of interest, so rational arithmetic agrees with the source's
JavaScript numbers there.

The component state lives in React useState hooks; it is modelled as the
record AppState, and each event handler or callback becomes a pure state
transformer.  The source's Annotation interface is modelled by the structure
Annot (the source name is avoided for lexical reasons); the payload passed to
addAnnotation (the source's Omit of Annotation without its id) is AnnotData,
with the freshly generated id (Date.now plus randomness in the source)
supplied as an explicit parameter.

The 500 ms debounced effect of lines 172-181 (which calls addToHistory with
the current annotation list whenever the list changes and is non-empty) is
modelled as the function historyEffect, applied exactly once after each
committing mutation; real-time debounce coalescing and React re-render
scheduling are outside this discrete model.
-/

namespace PDFEditor

/-- A 2-d point, as in the source's points arrays. -/
structure Point where
  x : ℚ
  y : ℚ
deriving DecidableEq

/-- Model of the source's Annotation interface (part_000 lines 69-91):
id, kind tag (the source field named type, a string), geometry, optional
text, style, 1-based page number, optional freehand points and optional
originalText. -/
structure Annot where
  id : String
  type : String
  x : ℚ
  y : ℚ
  width : Option ℚ := none
  height : Option ℚ := none
  text : Option String := none
  color : String
  fontSize : Option ℚ := none
  page : Nat
  points : Option (List Point) := none
  originalText : Option String := none
deriving DecidableEq

/-- The argument of addAnnotation: an Annotation without its id
(the source's Omit type). -/
structure AnnotData where
  type : String
  x : ℚ
  y : ℚ
  width : Option ℚ := none
  height : Option ℚ := none
  text : Option String := none
  color : String
  fontSize : Option ℚ := none
  page : Nat
  points : Option (List Point) := none
  originalText : Option String := none
deriving DecidableEq

/-- Attach a freshly generated id to the data passed to addAnnotation
(source line 667-670 spreads the data and adds the id). -/
def AnnotData.withId (d : AnnotData) (freshId : String) : Annot :=
  { id := freshId, type := d.type, x := d.x, y := d.y, width := d.width,
    height := d.height, text := d.text, color := d.color,
    fontSize := d.fontSize, page := d.page, points := d.points,
    originalText := d.originalText }

/-- A positioned text fragment extracted from a PDF page
(source interface PDFTextItem, lines 103-112). -/
structure PDFTextItem where
  id : String
  text : String
  x : ℚ
  y : ℚ
  width : ℚ
  height : ℚ
  fontSize : ℚ
  fontFamily : String
deriving DecidableEq

/-- One history entry: a snapshot of the committed annotation list
(source interface HistoryState, lines 114-116). -/
structure HistoryState where
  annotations : List Annot
deriving DecidableEq

/-- The empty snapshot, used as the initial history entry and as the junk
default for out-of-range history indexing. -/
def emptySnapshot : HistoryState := { annotations := [] }

/-- The useState-held component state relevant to annotation editing
(source lines 128-149). -/
structure AppState where
  annotations : List Annot
  history : List HistoryState
  historyIndex : Nat
  selectedTool : String
  selectedColor : String
  fontSize : ℚ
  zoomLevel : ℚ
  currentPage : Nat
  isDrawing : Bool
  startPos : Point
  drawingAnnot : Option Annot
  editingTextAnnot : Option Annot
  textEditMode : Bool
  selectedTextItem : Option PDFTextItem
deriving DecidableEq

/-- The initial hook values (source lines 128-149): empty annotation list,
history holding one empty snapshot, index 0, select tool, red color,
font size 16, zoom 100, page 1, no gesture in progress. -/
def initialState : AppState :=
  { annotations := []
    history := [emptySnapshot]
    historyIndex := 0
    selectedTool := "select"
    selectedColor := "#ff0000"
    fontSize := 16
    zoomLevel := 100
    currentPage := 1
    isDrawing := false
    startPos := { x := 0, y := 0 }
    drawingAnnot := none
    editingTextAnnot := none
    textEditMode := false
    selectedTextItem := none }

/-- Math.abs on a rational number. -/
def jsAbs (a : ℚ) : ℚ := if a < 0 then -a else a

/-- JavaScript's String.prototype.trim, for the whitespace characters that
occur in this development: drop whitespace from both ends. -/
def jsTrim (t : String) : String :=
  { data := ((t.data.dropWhile Char.isWhitespace).reverse.dropWhile Char.isWhitespace).reverse }

/-- JavaScript comparison o.width > 5 where the left side may be undefined:
undefined compares as false. -/
def jsGtQ (o : Option ℚ) (c : ℚ) : Bool :=
  match o with
  | some v => decide (c < v)
  | none => false

/-- JavaScript a or-else b on an optional number: null, undefined and 0 are
falsy and fall through to b. -/
def jsOrQ (o : Option ℚ) (b : ℚ) : ℚ :=
  match o with
  | some v => if v = 0 then b else v
  | none => b

/-- addToHistory (source lines 161-170): truncate the stack to the entries
up to and including the current index, append a copy of the new annotation
list, and advance the index. -/
def addToHistory (s : AppState) (newAnnotations : List Annot) : AppState :=
  { s with
    history := s.history.take (s.historyIndex + 1) ++ [{ annotations := newAnnotations }]
    historyIndex := s.historyIndex + 1 }

/-- One firing of the debounced history effect (source lines 172-181): when
the annotation list is non-empty, push it onto the history; when it is empty
the guard suppresses the push entirely. -/
def historyEffect (s : AppState) : AppState :=
  if 0 < s.annotations.length then addToHistory s s.annotations else s

/-- undo (source lines 183-189): when the index is positive, decrement it and
replace the live annotation list with the snapshot at the new index. -/
def undo (s : AppState) : AppState :=
  if 0 < s.historyIndex then
    { s with
      historyIndex := s.historyIndex - 1
      annotations := (s.history.getD (s.historyIndex - 1) emptySnapshot).annotations }
  else s

/-- redo (source lines 191-197): when the index is below the last entry,
increment it and replace the live annotation list with the snapshot at the
new index. -/
def redo (s : AppState) : AppState :=
  if s.historyIndex + 1 < s.history.length then
    { s with
      historyIndex := s.historyIndex + 1
      annotations := (s.history.getD (s.historyIndex + 1) emptySnapshot).annotations }
  else s

/-- addAnnotation (source lines 666-672): append the data, with a fresh id,
to the committed annotation list. -/
def addAnnot (s : AppState) (d : AnnotData) (freshId : String) : AppState :=
  { s with annotations := s.annotations ++ [d.withId freshId] }

/-- removeAnnotation (source lines 674-676): keep the annotations whose id
differs from the given one. -/
def removeAnnot (s : AppState) (annotationId : String) : AppState :=
  { s with annotations := s.annotations.filter (fun a => a.id ≠ annotationId) }

/-- The fields of a Partial Annotation passed to updateAnnotation: each field
is present or absent. -/
structure AnnotUpd where
  id : Option String := none
  type : Option String := none
  x : Option ℚ := none
  y : Option ℚ := none
  width : Option ℚ := none
  height : Option ℚ := none
  text : Option String := none
  color : Option String := none
  fontSize : Option ℚ := none
  page : Option Nat := none
  points : Option (List Point) := none
  originalText : Option String := none
deriving DecidableEq

/-- The object-spread merge of updateAnnotation: fields present in the update
override the annotation's fields, absent fields are kept. -/
def mergeUpd (ann : Annot) (u : AnnotUpd) : Annot :=
  { id := u.id.getD ann.id
    type := u.type.getD ann.type
    x := u.x.getD ann.x
    y := u.y.getD ann.y
    width := match u.width with | some w => some w | none => ann.width
    height := match u.height with | some h => some h | none => ann.height
    text := match u.text with | some t => some t | none => ann.text
    color := u.color.getD ann.color
    fontSize := match u.fontSize with | some f => some f | none => ann.fontSize
    page := u.page.getD ann.page
    points := match u.points with | some p => some p | none => ann.points
    originalText := match u.originalText with | some o => some o | none => ann.originalText }

/-- updateAnnotation (source lines 678-680): map over the committed list,
merging the updates into each annotation whose id matches. -/
def updateAnnot (s : AppState) (annotationId : String) (updates : AnnotUpd) : AppState :=
  { s with
    annotations := s.annotations.map
      (fun ann => if ann.id = annotationId then mergeUpd ann updates else ann) }

/-- The shape tools of the mouse-down dispatch (source line 1007). -/
def shapeTools : List String :=
  ["highlight", "rectangle", "circle", "underline", "strikethrough"]

/-- The hit test of the editText branch (source lines 965-974): the pointer
must fall inside the fragment's box scaled by zoom over 100, widened by a
5 px padding on each side. -/
def editTextHit (s : AppState) (x y : ℚ) (item : PDFTextItem) : Bool :=
  let scale := s.zoomLevel / 100
  decide (item.x * scale - 5 ≤ x) && decide (x ≤ (item.x + item.width) * scale + 5) &&
    decide (item.y * scale - 5 ≤ y) && decide (y ≤ (item.y + item.height) * scale + 5)

/-- The payload committed by the text branch of handleCanvasMouseDown
(source lines 948-959): width from the character-count heuristic, height
fontSize plus 4. -/
def textAnnotData (s : AppState) (x y : ℚ) (t : String) : AnnotData :=
  { type := "text", x := x, y := y
    width := some ((t.length : ℚ) * (s.fontSize * (0.6 : ℚ)))
    height := some (s.fontSize + 4)
    text := some t
    color := s.selectedColor
    fontSize := some s.fontSize
    page := s.currentPage }

/-- The payload committed by handleCanvasMouseUp (source lines 1074-1082):
the pending annotation's kind, box and color on the current page. -/
def commitDataOf (s : AppState) (d : Annot) : AnnotData :=
  { type := d.type, x := d.x, y := d.y, width := d.width, height := d.height,
    color := d.color, page := s.currentPage }

/-- The payload committed by handleTextEditSave (source lines 1092-1104):
the staged geometry, the textarea's text, the preserved originalText. -/
def saveDataOf (s : AppState) (editing : Annot) (newText : String) : AnnotData :=
  { type := "editText", x := editing.x, y := editing.y,
    width := editing.width, height := editing.height,
    text := some newText, originalText := editing.originalText,
    color := s.selectedColor,
    fontSize := some (jsOrQ editing.fontSize s.fontSize),
    page := s.currentPage }

/-- The staged text-edit annotation built in the editText branch (source
lines 980-992): the fragment's coordinates multiplied by the current zoom
scale, the fragment's text as both text and originalText. -/
def editAnnotOf (s : AppState) (clickedItem : PDFTextItem) (freshId : String) : Annot :=
  { id := "edit-" ++ freshId, type := "editText"
    x := clickedItem.x * (s.zoomLevel / 100)
    y := clickedItem.y * (s.zoomLevel / 100)
    width := some (clickedItem.width * (s.zoomLevel / 100))
    height := some (clickedItem.height * (s.zoomLevel / 100))
    text := some clickedItem.text
    originalText := some clickedItem.text
    color := s.selectedColor
    fontSize := some clickedItem.fontSize
    page := s.currentPage }

/-- handleCanvasMouseDown (source lines 932-1033).  The pointer position
relative to the overlay is (x, y); promptResult is the string returned by the
synchronous text prompt (none models a cancelled prompt); textItems stands
for the current page's extracted fragments (currentPageData textItems, empty
when absent); freshId is the generated id suffix. -/
def handleCanvasMouseDown (s : AppState) (x y : ℚ) (promptResult : Option String)
    (textItems : List PDFTextItem) (freshId : String) : AppState :=
  if s.selectedTool = "select" then s
  else
    let s1 := { s with startPos := { x := x, y := y }, isDrawing := true }
    if s.selectedTool = "text" then
      let s2 :=
        match promptResult with
        | some t =>
          if t ≠ "" ∧ jsTrim t ≠ "" then
            addAnnot s1 (textAnnotData s x y t) freshId
          else s1
        | none => s1
      { s2 with isDrawing := false }
    else if s.selectedTool = "editText" then
      match textItems.find? (editTextHit s x y) with
      | some clickedItem =>
        { s1 with
          selectedTextItem := some clickedItem
          editingTextAnnot := some (editAnnotOf s clickedItem freshId)
          textEditMode := true
          isDrawing := false }
      | none => { s1 with isDrawing := false }
    else if s.selectedTool ∈ shapeTools then
      { s1 with
        drawingAnnot := some
          { id := "temp-" ++ freshId, type := s.selectedTool, x := x, y := y,
            width := some 0, height := some 0, color := s.selectedColor,
            page := s.currentPage } }
    else if s.selectedTool = "freehand" then
      addAnnot s1
        { type := "freehand", x := x, y := y, width := some 3, height := some 3
          color := s.selectedColor, page := s.currentPage
          points := some [{ x := x, y := y }] } freshId
    else s1

/-- handleCanvasMouseMove (source lines 1035-1065): while a gesture is active
and the tool draws, either commit another freehand seed or recompute the
pending annotation's bounds as the axis-aligned box between the gesture start
and the current pointer. -/
def handleCanvasMouseMove (s : AppState) (currentX currentY : ℚ) (freshId : String) : AppState :=
  if s.isDrawing = false ∨ s.selectedTool = "select" ∨ s.selectedTool = "text" ∨
      s.selectedTool = "editText" then s
  else if s.selectedTool = "freehand" then
    addAnnot s
      { type := "freehand", x := currentX, y := currentY, width := some 2,
        height := some 2, color := s.selectedColor, page := s.currentPage,
        points := some [{ x := currentX, y := currentY }] } freshId
  else
    match s.drawingAnnot with
    | some d =>
      { s with
        drawingAnnot := some
          { d with
            width := some (jsAbs (currentX - s.startPos.x))
            height := some (jsAbs (currentY - s.startPos.y))
            x := min s.startPos.x currentX
            y := min s.startPos.y currentY } }
    | none => s

/-- handleCanvasMouseUp (source lines 1067-1086): end the gesture; commit the
pending annotation when its width or its height exceeds 5, discard it
otherwise; clear the pending annotation and the drawing flag. -/
def handleCanvasMouseUp (s : AppState) (freshId : String) : AppState :=
  if s.isDrawing then
    let s1 := { s with isDrawing := false }
    match s.drawingAnnot with
    | some d =>
      let s2 :=
        if jsGtQ d.width 5 || jsGtQ d.height 5 then
          addAnnot s1 (commitDataOf s d) freshId
        else s1
      { s2 with drawingAnnot := none }
    | none => s1
  else s

/-- handleTextEditSave (source lines 1088-1110): commit the staged text-edit
annotation with the textarea's text, preserving originalText and copying the
staged geometry, then clear the staging state. -/
def handleTextEditSave (s : AppState) (newText : String) (freshId : String) : AppState :=
  match s.editingTextAnnot with
  | some editing =>
    let s1 := addAnnot s (saveDataOf s editing newText) freshId
    { s1 with editingTextAnnot := none, textEditMode := false, selectedTextItem := none }
  | none => s

/-- A committing addition: addAnnotation followed by one firing of the
debounced history effect. -/
def commitAddAnnot (s : AppState) (d : AnnotData) (freshId : String) : AppState :=
  historyEffect (addAnnot s d freshId)

/-- A committing removal: removeAnnotation followed by one firing of the
debounced history effect. -/
def commitRemoveAnnot (s : AppState) (annotationId : String) : AppState :=
  historyEffect (removeAnnot s annotationId)

/-- A sequence of committing additions, applied left to right. -/
def commitAdds (ops : List (AnnotData × String)) (s : AppState) : AppState :=
  ops.foldl (fun t p => commitAddAnnot t p.1 p.2) s

/-! Sample data used by concrete counterexamples and witnesses. -/

/-- A sample rectangle payload. -/
def dRect : AnnotData :=
  { type := "rectangle", x := 10, y := 20, width := some 40, height := some 30,
    color := "#ff0000", page := 1 }

/-- A sample circle payload. -/
def dCirc : AnnotData :=
  { type := "circle", x := 5, y := 6, width := some 7, height := some 8,
    color := "#00ff00", page := 2 }

/-- A sample extracted text fragment, at page coordinates x 10, y 10. -/
def sampleItem : PDFTextItem :=
  { id := "t1", text := "Hello", x := 10, y := 10, width := 100, height := 12,
    fontSize := 12, fontFamily := "serif" }

/-! Step lemmas characterising each handler branch symbolically. -/

/-- A committing addition always fires the history push: the new annotation
list is non-empty, so the debounce guard passes. -/
theorem commitAddAnnot_eq (s : AppState) (d : AnnotData) (fid : String) :
    commitAddAnnot s d fid =
      { s with
        annotations := s.annotations ++ [d.withId fid]
        history := s.history.take (s.historyIndex + 1) ++
          [{ annotations := s.annotations ++ [d.withId fid] }]
        historyIndex := s.historyIndex + 1 } := by
  simp [commitAddAnnot, historyEffect, addAnnot, addToHistory]

/-- Mouse down with a shape tool opens a zero-sized pending annotation at the
pointer and marks the gesture active. -/
theorem mouseDown_shape_eq (s : AppState) (x y : ℚ) (pr : Option String)
    (items : List PDFTextItem) (fid : String)
    (htool : s.selectedTool ∈ shapeTools) :
    handleCanvasMouseDown s x y pr items fid =
      { s with
        startPos := { x := x, y := y }
        isDrawing := true
        drawingAnnot := some
          { id := "temp-" ++ fid, type := s.selectedTool, x := x, y := y,
            width := some 0, height := some 0, color := s.selectedColor,
            page := s.currentPage } } := by
  simp only [shapeTools, List.mem_cons, List.not_mem_nil, or_false] at htool
  rcases htool with h | h | h | h | h <;>
    simp [handleCanvasMouseDown, h, shapeTools]

/-- Mouse down with the text tool and a prompt result that is non-empty and
non-blank commits one text annotation and ends the gesture. -/
theorem mouseDown_text_commit_eq (s : AppState) (x y : ℚ) (t : String)
    (items : List PDFTextItem) (fid : String)
    (htool : s.selectedTool = "text") (h1 : t ≠ "") (h2 : jsTrim t ≠ "") :
    handleCanvasMouseDown s x y (some t) items fid =
      { s with
        startPos := { x := x, y := y }
        isDrawing := false
        annotations := s.annotations ++ [(textAnnotData s x y t).withId fid] } := by
  simp [handleCanvasMouseDown, htool, addAnnot, h1, h2]

/-- Mouse down with the text tool and a blank prompt result commits nothing
and ends the gesture. -/
theorem mouseDown_text_blank_eq (s : AppState) (x y : ℚ) (t : String)
    (items : List PDFTextItem) (fid : String)
    (htool : s.selectedTool = "text") (h2 : jsTrim t = "") :
    handleCanvasMouseDown s x y (some t) items fid =
      { s with startPos := { x := x, y := y }, isDrawing := false } := by
  simp [handleCanvasMouseDown, htool, h2]

/-- Mouse down with the text tool and a cancelled prompt commits nothing. -/
theorem mouseDown_text_cancel_eq (s : AppState) (x y : ℚ)
    (items : List PDFTextItem) (fid : String)
    (htool : s.selectedTool = "text") :
    handleCanvasMouseDown s x y none items fid =
      { s with startPos := { x := x, y := y }, isDrawing := false } := by
  simp [handleCanvasMouseDown, htool]

/-- Mouse down with the editText tool on a hit fragment stages the zoomed
copy of the fragment and opens the inline editor. -/
theorem mouseDown_editText_hit_eq (s : AppState) (x y : ℚ) (pr : Option String)
    (items : List PDFTextItem) (item : PDFTextItem) (fid : String)
    (htool : s.selectedTool = "editText")
    (hfind : items.find? (editTextHit s x y) = some item) :
    handleCanvasMouseDown s x y pr items fid =
      { s with
        startPos := { x := x, y := y }
        isDrawing := false
        selectedTextItem := some item
        editingTextAnnot := some (editAnnotOf s item fid)
        textEditMode := true } := by
  simp [handleCanvasMouseDown, htool, hfind]

/-- Mouse move during a shape gesture recomputes the pending box between the
gesture start and the pointer. -/
theorem mouseMove_shape_eq (s : AppState) (cx cy : ℚ) (fid : String) (d : Annot)
    (hdraw : s.isDrawing = true)
    (htool : s.selectedTool ∈ shapeTools)
    (hpend : s.drawingAnnot = some d) :
    handleCanvasMouseMove s cx cy fid =
      { s with
        drawingAnnot := some
          { d with
            width := some (jsAbs (cx - s.startPos.x))
            height := some (jsAbs (cy - s.startPos.y))
            x := min s.startPos.x cx
            y := min s.startPos.y cy } } := by
  simp only [shapeTools, List.mem_cons, List.not_mem_nil, or_false] at htool
  rcases htool with h | h | h | h | h <;>
    simp [handleCanvasMouseMove, h, hdraw, hpend]

/-- Mouse up with an active gesture and a pending box over the threshold
commits it and clears the gesture state. -/
theorem mouseUp_commit_eq (s : AppState) (fid : String) (d : Annot)
    (hdraw : s.isDrawing = true)
    (hpend : s.drawingAnnot = some d)
    (hbig : (jsGtQ d.width 5 || jsGtQ d.height 5) = true) :
    handleCanvasMouseUp s fid =
      { s with
        isDrawing := false
        drawingAnnot := none
        annotations := s.annotations ++ [(commitDataOf s d).withId fid] } := by
  simp [handleCanvasMouseUp, hdraw, hpend, hbig, addAnnot]

/-- Mouse up with an active gesture and a pending box at or under the
threshold discards it and clears the gesture state. -/
theorem mouseUp_discard_eq (s : AppState) (fid : String) (d : Annot)
    (hdraw : s.isDrawing = true)
    (hpend : s.drawingAnnot = some d)
    (hsmall : (jsGtQ d.width 5 || jsGtQ d.height 5) = false) :
    handleCanvasMouseUp s fid =
      { s with isDrawing := false, drawingAnnot := none } := by
  simp [handleCanvasMouseUp, hdraw, hpend, hsmall]

/-- Saving a staged text edit commits the staged geometry with the new text
and clears the staging state. -/
theorem textEditSave_eq (s : AppState) (t fid : String) (editing : Annot)
    (hstage : s.editingTextAnnot = some editing) :
    handleTextEditSave s t fid =
      { s with
        annotations := s.annotations ++ [(saveDataOf s editing t).withId fid]
        editingTextAnnot := none
        textEditMode := false
        selectedTextItem := none } := by
  simp [handleTextEditSave, hstage, addAnnot]

/-! History lemmas. -/

/-- Undo leaves every field other than the index and the live list alone. -/
theorem undo_frame (s : AppState) :
    undo s =
      { s with
        historyIndex := (undo s).historyIndex
        annotations := (undo s).annotations } := by
  unfold undo
  split <;> rfl

/-- Redo leaves every field other than the index and the live list alone. -/
theorem redo_frame (s : AppState) :
    redo s =
      { s with
        historyIndex := (redo s).historyIndex
        annotations := (redo s).annotations } := by
  unfold redo
  split <;> rfl

/-- Undo never changes the history stack. -/
theorem undo_history (s : AppState) : (undo s).history = s.history := by
  unfold undo
  split <;> rfl

/-- Redo never changes the history stack. -/
theorem redo_history (s : AppState) : (redo s).history = s.history := by
  unfold redo
  split <;> rfl

/-- Undo from a positive index steps back by one and loads that snapshot. -/
theorem undo_pos (s : AppState) (h : 0 < s.historyIndex) :
    (undo s).historyIndex = s.historyIndex - 1 ∧
      (undo s).annotations =
        (s.history.getD (s.historyIndex - 1) emptySnapshot).annotations := by
  unfold undo
  rw [if_pos h]
  exact ⟨rfl, rfl⟩

/-- Redo from an index with entries after it steps forward by one and loads
that snapshot. -/
theorem redo_pos (s : AppState) (h : s.historyIndex + 1 < s.history.length) :
    (redo s).historyIndex = s.historyIndex + 1 ∧
      (redo s).annotations =
        (s.history.getD (s.historyIndex + 1) emptySnapshot).annotations := by
  unfold redo
  rw [if_pos h]
  exact ⟨rfl, rfl⟩

/-- Iterating undo historyIndex many times lands on index 0 with the initial
snapshot loaded (or the state unchanged when the index was already 0),
without touching the stack. -/
theorem undo_iter (n : Nat) : ∀ s : AppState, s.historyIndex = n →
    (undo^[n] s).historyIndex = 0 ∧ (undo^[n] s).history = s.history ∧
      (undo^[n] s).annotations =
        (if n = 0 then s.annotations
         else (s.history.getD 0 emptySnapshot).annotations) := by
  induction n with
  | zero =>
    intro s h
    simp [h]
  | succ m ih =>
    intro s h
    rw [Function.iterate_succ_apply]
    have hu : undo s =
        { s with
          historyIndex := m
          annotations := (s.history.getD m emptySnapshot).annotations } := by
      unfold undo
      rw [h]
      simp
    obtain ⟨hi, hh, ha⟩ := ih (undo s) (by rw [hu])
    refine ⟨hi, by rw [hh, hu], ?_⟩
    rw [ha, hu]
    rcases Nat.eq_zero_or_pos m with hm | hm
    · simp [hm]
    · simp [Nat.succ_ne_zero, if_neg (Nat.pos_iff_ne_zero.mp hm)]

/-- Iterating redo j many times from index i, with index i plus j still in
range, lands on index i plus j with that snapshot loaded (or the state
unchanged when j is 0), without touching the stack. -/
theorem redo_iter (j : Nat) : ∀ (s : AppState) (i : Nat), s.historyIndex = i →
    i + j < s.history.length →
    (redo^[j] s).historyIndex = i + j ∧ (redo^[j] s).history = s.history ∧
      (redo^[j] s).annotations =
        (if j = 0 then s.annotations
         else (s.history.getD (i + j) emptySnapshot).annotations) := by
  induction j with
  | zero =>
    intro s i h hlt
    simp [h]
  | succ m ih =>
    intro s i h hlt
    rw [Function.iterate_succ_apply]
    have hr : redo s =
        { s with
          historyIndex := i + 1
          annotations := (s.history.getD (i + 1) emptySnapshot).annotations } := by
      unfold redo
      rw [if_pos (by omega), h]
    obtain ⟨hi, hh, ha⟩ := ih (redo s) (i + 1) (by rw [hr]) (by rw [hr]; simp; omega)
    refine ⟨by rw [hi]; omega, by rw [hh, hr], ?_⟩
    rw [ha, hr]
    rcases Nat.eq_zero_or_pos m with hm | hm
    · simp [hm]
    · have h1 : i + 1 + m = i + (m + 1) := by omega
      simp [Nat.succ_ne_zero, if_neg (Nat.pos_iff_ne_zero.mp hm), h1]

/-- Each committing addition at the tail of the history appends one entry,
advances the index by one, and keeps the head entry. -/
theorem commitAdds_spec : ∀ (ops : List (AnnotData × String)) (s : AppState),
    s.historyIndex + 1 = s.history.length →
    (commitAdds ops s).historyIndex = s.historyIndex + ops.length ∧
      (commitAdds ops s).history.length = s.history.length + ops.length ∧
      (commitAdds ops s).history.getD 0 emptySnapshot =
        s.history.getD 0 emptySnapshot ∧
      (commitAdds ops s).historyIndex + 1 = (commitAdds ops s).history.length := by
  intro ops
  induction ops with
  | nil =>
    intro s h
    simpa [commitAdds] using h
  | cons p rest ih =>
    intro s h
    have hstep := commitAddAnnot_eq s p.1 p.2
    have htake : s.history.take (s.historyIndex + 1) = s.history := by
      rw [h, List.take_length]
    have hcons : commitAdds (p :: rest) s = commitAdds rest (commitAddAnnot s p.1 p.2) := by
      simp [commitAdds]
    have hne : 0 < s.history.length := by omega
    have hinv : (commitAddAnnot s p.1 p.2).historyIndex + 1 =
        (commitAddAnnot s p.1 p.2).history.length := by
      rw [hstep]
      simp [htake]
      omega
    obtain ⟨hi, hl, hd, ht⟩ := ih (commitAddAnnot s p.1 p.2) hinv
    rw [hcons]
    refine ⟨?_, ?_, ?_, ht⟩
    · rw [hi, hstep]
      simp
      omega
    · rw [hl, hstep]
      simp [htake]
      omega
    · rw [hd, hstep]
      simp only [htake]
      rcases hSH : s.history with _ | ⟨a, t⟩
      · rw [hSH] at hne
        simp at hne
      · rfl

/-! Claim theorems. -/

/-- C1, counterexample: starting from the initial state, adding one
annotation and then removing it again is a sequence of two committing
mutations, yet the removal that empties the list appends no history entry
(the debounced effect only fires on a non-empty list), so afterwards the
history index is 1 and the stack has 2 entries, not 2 and 3 as the claim
requires. -/
theorem C1_counterexample :
    (commitRemoveAnnot (commitAddAnnot initialState dRect "a1") "a1").historyIndex = 1 ∧
    (commitRemoveAnnot (commitAddAnnot initialState dRect "a1") "a1").history.length = 2 ∧
    ¬((commitRemoveAnnot (commitAddAnnot initialState dRect "a1") "a1").historyIndex = 2 ∧
      (commitRemoveAnnot (commitAddAnnot initialState dRect "a1") "a1").history.length = 3) := by
  decide

/-- C1, amended: a committing mutation that leaves the committed list
non-empty appends exactly one history entry and advances the index by one
(truncating first when the index is not at the tail), but a removal that
leaves the list empty appends none; consequently, after any sequence of N
committing additions from the initial state, historyIndex is N, the history
has N plus 1 entries, and the entry at index 0 is the empty snapshot. -/
theorem C1_amended_thm :
    (∀ ops : List (AnnotData × String),
      (commitAdds ops initialState).historyIndex = ops.length ∧
      (commitAdds ops initialState).history.length = ops.length + 1 ∧
      ((commitAdds ops initialState).history.getD 0 emptySnapshot).annotations = []) ∧
    (∀ (s : AppState) (aid : String),
      (removeAnnot s aid).annotations.length = 0 →
      (commitRemoveAnnot s aid).history = s.history ∧
      (commitRemoveAnnot s aid).historyIndex = s.historyIndex) ∧
    (∀ (s : AppState) (aid : String),
      0 < (removeAnnot s aid).annotations.length →
      (commitRemoveAnnot s aid).history =
        s.history.take (s.historyIndex + 1) ++
          [{ annotations := (removeAnnot s aid).annotations }] ∧
      (commitRemoveAnnot s aid).historyIndex = s.historyIndex + 1) ∧
    (∀ (s : AppState) (d : AnnotData) (fid : String),
      (commitAddAnnot s d fid).history =
        s.history.take (s.historyIndex + 1) ++
          [{ annotations := s.annotations ++ [d.withId fid] }] ∧
      (commitAddAnnot s d fid).historyIndex = s.historyIndex + 1) := by
  refine ⟨?_, ?_, ?_, ?_⟩
  · intro ops
    obtain ⟨hi, hl, hd, _⟩ := commitAdds_spec ops initialState (by rfl)
    refine ⟨by simpa [initialState] using hi, by rw [hl]; simp [initialState]; omega, ?_⟩
    rw [hd]
    rfl
  · intro s aid hlen
    unfold commitRemoveAnnot historyEffect
    rw [hlen]
    exact ⟨rfl, rfl⟩
  · intro s aid hlen
    unfold commitRemoveAnnot historyEffect
    rw [if_pos]
    · exact ⟨rfl, rfl⟩
    · simpa [removeAnnot] using hlen
  · intro s d fid
    rw [commitAddAnnot_eq]
    exact ⟨rfl, rfl⟩

/-- C1, witness for the amended claim at concrete inputs: two committing
additions from the initial state give index 2, and a removal that empties
the list leaves the history unchanged. -/
theorem C1_amended_witness :
    (commitAdds [(dRect, "a1"), (dCirc, "b1")] initialState).historyIndex = 2 ∧
    (commitRemoveAnnot (commitAddAnnot initialState dRect "a1") "a1").history =
      (commitAddAnnot initialState dRect "a1").history := by
  refine ⟨?_, ?_⟩
  · exact (C1_amended_thm.1 [(dRect, "a1"), (dCirc, "b1")]).1
  · exact (C1_amended_thm.2.1 (commitAddAnnot initialState dRect "a1") "a1" (by decide)).1

/-- C2: undo and redo never add, remove or alter the entries of the history
stack and change nothing but the index and the live annotation list; when
their bound allows a step, the live list becomes exactly the snapshot at the
new index. -/
theorem C2_thm (s : AppState) :
    (undo s).history = s.history ∧ (redo s).history = s.history ∧
    undo s = { s with
      historyIndex := (undo s).historyIndex
      annotations := (undo s).annotations } ∧
    redo s = { s with
      historyIndex := (redo s).historyIndex
      annotations := (redo s).annotations } ∧
    (0 < s.historyIndex →
      (undo s).historyIndex = s.historyIndex - 1 ∧
      (undo s).annotations =
        (s.history.getD (s.historyIndex - 1) emptySnapshot).annotations) ∧
    (s.historyIndex + 1 < s.history.length →
      (redo s).historyIndex = s.historyIndex + 1 ∧
      (redo s).annotations =
        (s.history.getD (s.historyIndex + 1) emptySnapshot).annotations) :=
  ⟨undo_history s, redo_history s, undo_frame s, redo_frame s, undo_pos s, redo_pos s⟩

/-- C2, witness: at a concrete state with index 1 inside a 3-entry history,
undo and redo keep the stack and land on the adjacent snapshots. -/
theorem C2_witness :
    (undo (undo (commitAdds [(dRect, "a1"), (dCirc, "b1")] initialState))).history =
      (undo (commitAdds [(dRect, "a1"), (dCirc, "b1")] initialState)).history ∧
    (undo (undo (commitAdds [(dRect, "a1"), (dCirc, "b1")] initialState))).historyIndex =
      (undo (commitAdds [(dRect, "a1"), (dCirc, "b1")] initialState)).historyIndex - 1 ∧
    (redo (undo (commitAdds [(dRect, "a1"), (dCirc, "b1")] initialState))).historyIndex =
      (undo (commitAdds [(dRect, "a1"), (dCirc, "b1")] initialState)).historyIndex + 1 := by
  obtain ⟨h1, _, _, _, h5, h6⟩ :=
    C2_thm (undo (commitAdds [(dRect, "a1"), (dCirc, "b1")] initialState))
  exact ⟨h1, (h5 (by decide)).1, (h6 (by decide)).1⟩

/-- C5: when the index has been moved back below the tail, the next
committing addition truncates the stack to the entries up to the index,
appends the new snapshot, and leaves the index at the new tail, for a stack
of exactly index plus 2 entries. -/
theorem C5_thm (s : AppState) (d : AnnotData) (fid : String)
    (h : s.historyIndex + 1 < s.history.length) :
    (commitAddAnnot s d fid).history =
      s.history.take (s.historyIndex + 1) ++
        [{ annotations := s.annotations ++ [d.withId fid] }] ∧
    (commitAddAnnot s d fid).history.length = s.historyIndex + 2 ∧
    (commitAddAnnot s d fid).historyIndex = s.historyIndex + 1 ∧
    (commitAddAnnot s d fid).historyIndex =
      (commitAddAnnot s d fid).history.length - 1 := by
  have hlen : (s.history.take (s.historyIndex + 1)).length = s.historyIndex + 1 := by
    rw [List.length_take]
    omega
  rw [commitAddAnnot_eq]
  refine ⟨rfl, ?_, rfl, ?_⟩ <;> simp [hlen]

/-- C5, witness: after undoing from the tail of a 2-entry history to index
0, a committing addition yields a 2-entry stack with the index at the new
tail. -/
theorem C5_witness :
    (commitAddAnnot (undo (commitAddAnnot initialState dRect "a1")) dCirc "b1").history.length =
      (undo (commitAddAnnot initialState dRect "a1")).historyIndex + 2 ∧
    (commitAddAnnot (undo (commitAddAnnot initialState dRect "a1")) dCirc "b1").historyIndex =
      (undo (commitAddAnnot initialState dRect "a1")).historyIndex + 1 := by
  obtain ⟨_, h2, h3, _⟩ :=
    C5_thm (undo (commitAddAnnot initialState dRect "a1")) dCirc "b1" (by decide)
  exact ⟨h2, h3⟩

/-- C6: from a committed state whose live list agrees with the snapshot at
the current index k, undoing k times and then redoing k times restores the
live annotation list and the index exactly, leaving the stack unchanged. -/
theorem C6_thm (s : AppState) (k : Nat) (h1 : s.historyIndex = k)
    (h2 : k < s.history.length)
    (h3 : s.annotations = (s.history.getD k emptySnapshot).annotations) :
    (redo^[k] (undo^[k] s)).annotations = s.annotations ∧
    (redo^[k] (undo^[k] s)).historyIndex = k ∧
    (redo^[k] (undo^[k] s)).history = s.history := by
  obtain ⟨hu0, huh, hua⟩ := undo_iter k s h1
  obtain ⟨hr0, hrh, hra⟩ := redo_iter k (undo^[k] s) 0 hu0 (by rw [huh]; omega)
  refine ⟨?_, by rw [hr0]; omega, by rw [hrh, huh]⟩
  rw [hra]
  rcases Nat.eq_zero_or_pos k with hk | hk
  · subst hk
    simp
  · rw [if_neg (Nat.pos_iff_ne_zero.mp hk), huh]
    simp only [Nat.zero_add]
    exact h3.symm

/-- C6, witness: after two committing additions, undoing twice and redoing
twice restores the live list and the index 2. -/
theorem C6_witness :
    (redo^[2] (undo^[2] (commitAdds [(dRect, "a1"), (dCirc, "b1")] initialState))).annotations =
      (commitAdds [(dRect, "a1"), (dCirc, "b1")] initialState).annotations ∧
    (redo^[2] (undo^[2] (commitAdds [(dRect, "a1"), (dCirc, "b1")] initialState))).historyIndex = 2 := by
  obtain ⟨ha, hi, _⟩ :=
    C6_thm (commitAdds [(dRect, "a1"), (dCirc, "b1")] initialState) 2 (by decide)
      (by decide) (by decide)
  exact ⟨ha, hi⟩

/-- C7: undo at index 0 and redo at the last index are pure no-ops: the
whole state, stack included, is returned unchanged, and no failure is
possible since both are total functions. -/
theorem C7_thm (s : AppState) :
    (s.historyIndex = 0 → undo s = s) ∧
    (s.historyIndex = s.history.length - 1 → redo s = s) := by
  constructor
  · intro h
    unfold undo
    rw [if_neg]
    omega
  · intro h
    unfold redo
    rw [if_neg]
    omega

/-- C7, witness: at the initial state, whose index is 0 and whose history
has a single entry, undo and redo both return the state unchanged. -/
theorem C7_witness :
    undo initialState = initialState ∧ redo initialState = initialState :=
  ⟨(C7_thm initialState).1 rfl, (C7_thm initialState).2 (by decide)⟩

/-- A sample pending annotation with width 6 and height 0, as in the shape
commit threshold example. -/
def dPend : Annot :=
  { id := "temp-g", type := "rectangle", x := 1, y := 2, width := some 6,
    height := some 0, color := "#ff0000", page := 1 }

/-- The initial state with an active gesture holding the sample pending
annotation. -/
def sPend : AppState :=
  { initialState with isDrawing := true, drawingAnnot := some dPend }

/-- C4: ending an active shape gesture clears the drawing flag and the
pending annotation unconditionally; the pending box is committed exactly
when its width or height exceeds 5, and discarded (leaving the committed
list unchanged) when both are at most 5. -/
theorem C4_thm (s : AppState) (fid : String) (d : Annot)
    (hdraw : s.isDrawing = true) (hpend : s.drawingAnnot = some d) :
    (handleCanvasMouseUp s fid).isDrawing = false ∧
    (handleCanvasMouseUp s fid).drawingAnnot = none ∧
    ((jsGtQ d.width 5 || jsGtQ d.height 5) = true →
      (handleCanvasMouseUp s fid).annotations =
        s.annotations ++ [(commitDataOf s d).withId fid]) ∧
    ((jsGtQ d.width 5 || jsGtQ d.height 5) = false →
      (handleCanvasMouseUp s fid).annotations = s.annotations) ∧
    (∀ w h : ℚ, d.width = some w → d.height = some h → w ≤ 5 → h ≤ 5 →
      (handleCanvasMouseUp s fid).annotations = s.annotations) := by
  have hsmall : ∀ w h : ℚ, d.width = some w → d.height = some h → w ≤ 5 → h ≤ 5 →
      (jsGtQ d.width 5 || jsGtQ d.height 5) = false := by
    intro w h hw hh hw5 hh5
    simp [jsGtQ, hw, hh, not_lt.mpr hw5, not_lt.mpr hh5]
  cases hb : (jsGtQ d.width 5 || jsGtQ d.height 5) with
  | false =>
    rw [mouseUp_discard_eq s fid d hdraw hpend hb]
    refine ⟨rfl, rfl, ?_, fun _ => rfl, fun _ _ _ _ _ _ => rfl⟩
    intro hc
    exact absurd hc (by simp)
  | true =>
    rw [mouseUp_commit_eq s fid d hdraw hpend hb]
    refine ⟨rfl, rfl, fun _ => rfl, ?_, ?_⟩
    · intro hc
      exact absurd hc (by simp)
    · intro w h hw hh hw5 hh5
      have hf := hsmall w h hw hh hw5 hh5
      rw [hb] at hf
      exact absurd hf (by simp)

/-- C4, witness: a pending box of width 6 and height 0 is committed, and the
gesture state is cleared. -/
theorem C4_witness :
    (handleCanvasMouseUp sPend "w1").isDrawing = false ∧
    (handleCanvasMouseUp sPend "w1").drawingAnnot = none ∧
    (handleCanvasMouseUp sPend "w1").annotations =
      sPend.annotations ++ [(commitDataOf sPend dPend).withId "w1"] := by
  obtain ⟨h1, h2, h3, _, _⟩ := C4_thm sPend "w1" dPend rfl rfl
  exact ⟨h1, h2, h3 (by decide)⟩

/-- The pending annotation after starting a rectangle at pointer (50, 50)
and dragging to (20, 80). -/
def dMoved : Annot :=
  { id := "temp-" ++ "g1", type := "rectangle", x := min 50 20, y := min 50 80,
    width := some (jsAbs (20 - 50)), height := some (jsAbs (80 - 50)),
    color := "#ff0000", page := 1 }

/-- The state after starting a rectangle at (50, 50) and dragging to
(20, 80) from the initial state. -/
def c8s2 : AppState :=
  { initialState with
    selectedTool := "rectangle"
    startPos := { x := 50, y := 50 }
    isDrawing := true
    drawingAnnot := some dMoved }

/-- C8: every pointer move during a shape gesture recomputes the pending
annotation's bounds as the axis-aligned box between the gesture start and
the current pointer (componentwise min origin, absolute-difference size),
and in particular a rectangle started at (50, 50) and dragged to (20, 80)
is committed with x 20, y 50, width 30, height 30. -/
theorem C8_thm :
    (∀ (s : AppState) (cx cy : ℚ) (fid : String) (d : Annot),
      s.isDrawing = true → s.selectedTool ∈ shapeTools → s.drawingAnnot = some d →
      (handleCanvasMouseMove s cx cy fid).drawingAnnot =
        some { d with
          x := min s.startPos.x cx
          y := min s.startPos.y cy
          width := some (jsAbs (cx - s.startPos.x))
          height := some (jsAbs (cy - s.startPos.y)) }) ∧
    ((handleCanvasMouseUp (handleCanvasMouseMove (handleCanvasMouseDown
        { initialState with selectedTool := "rectangle" } 50 50 none [] "g1") 20 80 "g2")
        "g3").annotations).map (fun a => (a.x, a.y, a.width, a.height)) =
      [(20, 50, some 30, some 30)] := by
  constructor
  · intro s cx cy fid d hdraw htool hpend
    rw [mouseMove_shape_eq s cx cy fid d hdraw htool hpend]
  · have h12 : handleCanvasMouseMove (handleCanvasMouseDown
        { initialState with selectedTool := "rectangle" } 50 50 none [] "g1") 20 80 "g2" = c8s2 := rfl
    have h3 := mouseUp_commit_eq c8s2 "g3" dMoved rfl rfl
      (by simp [jsGtQ, dMoved]; norm_num [jsAbs])
    rw [h12, h3]
    simp [c8s2, commitDataOf, AnnotData.withId, dMoved, initialState]
    norm_num [min_def, jsAbs]

/-- C8, witness: the symbolic recompute rule applied at the concrete gesture
state of the scenario: dragging to (20, 80) from start (50, 50) yields the
box with origin (20, 50) and size 30 by 30. -/
theorem C8_witness :
    (handleCanvasMouseMove c8s2 20 80 "g4").drawingAnnot =
      some { dMoved with
        x := min c8s2.startPos.x 20
        y := min c8s2.startPos.y 80
        width := some (jsAbs (20 - c8s2.startPos.x))
        height := some (jsAbs (80 - c8s2.startPos.y)) } :=
  C8_thm.1 c8s2 20 80 "g4" dMoved rfl (by decide) rfl

/-- C9, counterexample: a prompt result consisting of one space is a
non-empty string, yet the text tool commits nothing for it, because the
code additionally requires the trimmed text to be non-empty. -/
theorem C9_counterexample :
    (" " : String) ≠ "" ∧
    (handleCanvasMouseDown { initialState with selectedTool := "text" } 10 20
      (some " ") [] "t1").annotations = [] := by
  constructor
  · decide
  · rw [mouseDown_text_blank_eq _ 10 20 " " [] "t1" rfl (by decide)]
    rfl

/-- C9, amended: a text-tool click whose prompt result is non-empty and
non-blank after trimming immediately commits exactly one text annotation on
the current page, sized width text length times fontSize times 0.6 and
height fontSize plus 4, without entering a drag gesture; a blank or
cancelled prompt creates nothing and raises no error; for text hi at
fontSize 16 the committed width is 19.2 and the height is 20. -/
theorem C9_thm :
    (∀ (s : AppState) (x y : ℚ) (t : String) (items : List PDFTextItem) (fid : String),
      s.selectedTool = "text" → t ≠ "" → jsTrim t ≠ "" →
      (handleCanvasMouseDown s x y (some t) items fid).annotations =
        s.annotations ++ [(textAnnotData s x y t).withId fid] ∧
      (handleCanvasMouseDown s x y (some t) items fid).isDrawing = false) ∧
    (∀ (s : AppState) (x y : ℚ) (t : String) (items : List PDFTextItem) (fid : String),
      s.selectedTool = "text" → jsTrim t = "" →
      (handleCanvasMouseDown s x y (some t) items fid).annotations = s.annotations ∧
      (handleCanvasMouseDown s x y (some t) items fid).isDrawing = false) ∧
    (∀ (s : AppState) (x y : ℚ) (items : List PDFTextItem) (fid : String),
      s.selectedTool = "text" →
      (handleCanvasMouseDown s x y none items fid).annotations = s.annotations) ∧
    ((handleCanvasMouseDown { initialState with selectedTool := "text" } 10 20
        (some "hi") [] "t1").annotations).map (fun a => (a.width, a.height)) =
      [(some (19.2 : ℚ), some (20 : ℚ))] := by
  refine ⟨?_, ?_, ?_, ?_⟩
  · intro s x y t items fid htool h1 h2
    rw [mouseDown_text_commit_eq s x y t items fid htool h1 h2]
    exact ⟨rfl, rfl⟩
  · intro s x y t items fid htool h2
    rw [mouseDown_text_blank_eq s x y t items fid htool h2]
    exact ⟨rfl, rfl⟩
  · intro s x y items fid htool
    rw [mouseDown_text_cancel_eq s x y items fid htool]
  · rw [mouseDown_text_commit_eq _ 10 20 "hi" [] "t1" rfl (by decide) (by decide)]
    simp [textAnnotData, AnnotData.withId, initialState]
    norm_num [show ("hi".length) = 2 from rfl]

/-- C9, witness for the amended claim: the commit rule applied to the
concrete hi entry at the initial font size: exactly one annotation is
appended and the gesture flag ends false. -/
theorem C9_witness :
    (handleCanvasMouseDown { initialState with selectedTool := "text" } 10 20
        (some "hi") [] "t1").annotations =
      ({ initialState with selectedTool := "text" } : AppState).annotations ++
        [(textAnnotData { initialState with selectedTool := "text" } 10 20 "hi").withId "t1"] ∧
    (handleCanvasMouseDown { initialState with selectedTool := "text" } 10 20
        (some "hi") [] "t1").isDrawing = false :=
  C9_thm.1 { initialState with selectedTool := "text" } 10 20 "hi" [] "t1" rfl
    (by decide) (by decide)

/-- C10: updateAnnotation merges the given fields into every annotation
whose id matches, keeps the length and the relative order of the committed
list, leaves non-matching annotations untouched, and is a total no-op on the
list when no committed annotation has the given id. -/
theorem C10_thm (s : AppState) (aid : String) (u : AnnotUpd) :
    (updateAnnot s aid u).annotations.length = s.annotations.length ∧
    (∀ j : Nat, (updateAnnot s aid u).annotations[j]? =
      (s.annotations[j]?).map
        (fun ann => if ann.id = aid then mergeUpd ann u else ann)) ∧
    ((∀ a ∈ s.annotations, a.id ≠ aid) →
      (updateAnnot s aid u).annotations = s.annotations) := by
  refine ⟨by simp [updateAnnot], ?_, ?_⟩
  · intro j
    simp [updateAnnot]
  · intro hno
    simp only [updateAnnot]
    have : ∀ l : List Annot, (∀ a ∈ l, a.id ≠ aid) →
        l.map (fun ann => if ann.id = aid then mergeUpd ann u else ann) = l := by
      intro l
      induction l with
      | nil => intro _; rfl
      | cons a t ih =>
        intro h
        simp only [List.map_cons]
        rw [if_neg (h a (List.mem_cons_self a t)),
          ih (fun b hb => h b (List.mem_cons_of_mem a hb))]
    exact this s.annotations hno

/-- The initial state with the editText tool selected at zoom 100. -/
def c3s100 : AppState :=
  { initialState with selectedTool := "editText", zoomLevel := 100 }

/-- The initial state with the editText tool selected at zoom 200. -/
def c3s200 : AppState :=
  { initialState with selectedTool := "editText", zoomLevel := 200 }

/-- A click at (25, 25) hits the sample fragment at zoom 100. -/
theorem sampleItem_hit100 : editTextHit c3s100 25 25 sampleItem = true := by
  simp [editTextHit, c3s100, sampleItem, initialState]
  norm_num

/-- A click at (25, 25) hits the sample fragment at zoom 200. -/
theorem sampleItem_hit200 : editTextHit c3s200 25 25 sampleItem = true := by
  simp [editTextHit, c3s200, sampleItem, initialState]
  norm_num

/-- The hit test finds the sample fragment at zoom 100. -/
theorem sampleItem_find100 :
    List.find? (editTextHit c3s100 25 25) [sampleItem] = some sampleItem := by
  simp [List.find?, sampleItem_hit100]

/-- The hit test finds the sample fragment at zoom 200. -/
theorem sampleItem_find200 :
    List.find? (editTextHit c3s200 25 25) [sampleItem] = some sampleItem := by
  simp [List.find?, sampleItem_hit200]

/-- C3, counterexample: clicking the same text fragment, whose page x
coordinate is 10, and saving the edit commits x 10 at zoom 100 but x 20 at
zoom 200: the gesture's zoom level is persisted into the committed record,
so committed geometry is not expressed in unscaled page coordinates. -/
theorem C3_counterexample :
    sampleItem.x = 10 ∧
    ((handleTextEditSave (handleCanvasMouseDown c3s100 25 25 none [sampleItem] "e1")
        "new" "e2").annotations).map (fun a => a.x) = [10] ∧
    ((handleTextEditSave (handleCanvasMouseDown c3s200 25 25 none [sampleItem] "e1")
        "new" "e2").annotations).map (fun a => a.x) = [20] := by
  refine ⟨rfl, ?_, ?_⟩
  · rw [mouseDown_editText_hit_eq c3s100 25 25 none [sampleItem] sampleItem "e1" rfl
      sampleItem_find100]
    rw [textEditSave_eq _ "new" "e2" (editAnnotOf c3s100 sampleItem "e1") rfl]
    simp [saveDataOf, editAnnotOf, AnnotData.withId, c3s100, initialState, sampleItem]
  · rw [mouseDown_editText_hit_eq c3s200 25 25 none [sampleItem] sampleItem "e1" rfl
      sampleItem_find200]
    rw [textEditSave_eq _ "new" "e2" (editAnnotOf c3s200 sampleItem "e1") rfl]
    simp [saveDataOf, editAnnotOf, AnnotData.withId, c3s200, initialState, sampleItem]
    norm_num

/-- C3, amended: geometry committed through the editText flow is expressed
in the overlay's on-screen coordinates at the zoom level active when the
gesture occurred: the committed record's x, y, width and height are the
fragment's page coordinates multiplied by zoomLevel over 100, so the zoom
scale is persisted into the annotation record rather than applied only at
render time. -/
theorem C3_amended_thm (s : AppState) (x y : ℚ) (items : List PDFTextItem)
    (item : PDFTextItem) (fid1 fid2 newText : String)
    (htool : s.selectedTool = "editText")
    (hfind : items.find? (editTextHit s x y) = some item) :
    ((handleTextEditSave (handleCanvasMouseDown s x y none items fid1) newText
        fid2).annotations).map (fun a => (a.x, a.y, a.width, a.height)) =
      (s.annotations.map (fun a => (a.x, a.y, a.width, a.height))) ++
        [(item.x * (s.zoomLevel / 100), item.y * (s.zoomLevel / 100),
          some (item.width * (s.zoomLevel / 100)),
          some (item.height * (s.zoomLevel / 100)))] := by
  rw [mouseDown_editText_hit_eq s x y none items item fid1 htool hfind]
  rw [textEditSave_eq _ newText fid2 (editAnnotOf s item fid1) rfl]
  simp [saveDataOf, editAnnotOf, AnnotData.withId]

/-- C3, witness for the amended claim: at zoom 200 the committed record
carries the sample fragment's coordinates multiplied by 2. -/
theorem C3_amended_witness :
    ((handleTextEditSave (handleCanvasMouseDown c3s200 25 25 none [sampleItem] "e1")
        "new" "e2").annotations).map (fun a => (a.x, a.y, a.width, a.height)) =
      (c3s200.annotations.map (fun a => (a.x, a.y, a.width, a.height))) ++
        [(sampleItem.x * (c3s200.zoomLevel / 100), sampleItem.y * (c3s200.zoomLevel / 100),
          some (sampleItem.width * (c3s200.zoomLevel / 100)),
          some (sampleItem.height * (c3s200.zoomLevel / 100)))] :=
  C3_amended_thm c3s200 25 25 [sampleItem] sampleItem "e1" "e2" "new" rfl sampleItem_find200

/-- C10, witness: at a state holding one annotation with id a1, an update
addressed to the absent id zz leaves the committed list unchanged. -/
theorem C10_witness :
    (updateAnnot { initialState with annotations := [dRect.withId "a1"] } "zz" {}).annotations =
      ({ initialState with annotations := [dRect.withId "a1"] } : AppState).annotations :=
  (C10_thm { initialState with annotations := [dRect.withId "a1"] } "zz" {}).2.2 (by decide)

end PDFEditor
